import Mathlib

/-!
Verification development for the tsuru event subsystem (event/event.go).

The Go source is shallowly embedded: machine times (time.Time, time.Duration)
become Int (seconds), bson.ObjectId becomes Nat, the mongo collection becomes
an explicit list of event rows threaded through each operation, and the
low-level bson byte marshaller (mgo driver, out of scope per the spec) is a
function parameter.  Go map iteration (nondeterministic order) is modelled by
association lists in first-insertion order.
-/

namespace TsuruEvent

/-- Seconds in lockUpdateInterval = 30 * time.Second. -/
def lockUpdateInterval : Int := 30

/-- Seconds in lockExpireTimeout = 5 * time.Minute. -/
def lockExpireTimeout : Int := 300

def filterMaxLimit : Int := 100

/-- Target struct: Type (a string alias TargetType) and Value. -/
structure Target where
  type : String
  value : String
deriving DecidableEq

instance : Inhabited Target := ⟨⟨"", ""⟩⟩

/-- Target.IsValid: id.Type != "". -/
def Target.IsValid (t : Target) : Bool := t.type != ""

/-- eventID struct: Target plus ObjId (bson.ObjectId, modelled as Option Nat;
none is the empty ObjectId). -/
structure eventID where
  target : Target
  objId : Option Nat
deriving DecidableEq

/-- The value eventID.GetBSON serializes as the primary key: the ObjectId when
it is non-empty, the target sub-document otherwise. -/
inductive BId where
  | tgt (t : Target)
  | oid (n : Nat)
deriving DecidableEq

/-- eventID.GetBSON: if len(id.ObjId) != 0 return ObjId else the target doc. -/
def eventID.key (id : eventID) : BId :=
  match id.objId with
  | some n => BId.oid n
  | none => BId.tgt id.target

structure Kind where
  type : String
  name : String
deriving DecidableEq

structure Owner where
  type : String
  name : String
deriving DecidableEq

structure PermissionContext where
  ctxType : String
  value : String
deriving DecidableEq

/-- permission.CtxGlobal. -/
def ctxGlobal : String := "global"

structure AllowedPermission where
  scheme : String
  contexts : List PermissionContext
deriving DecidableEq

instance : Inhabited AllowedPermission := ⟨⟨"", []⟩⟩

structure cancelInfo where
  owner : String
  startTime : Int
  ackTime : Int
  reason : String
  asked : Bool
  canceled : Bool
deriving DecidableEq

instance : Inhabited cancelInfo := ⟨⟨"", 0, 0, "", false, false⟩⟩

/-- Raw bson bytes produced by the mgo driver (abstract). -/
abbrev MBytes := List Nat

/-- bson.Raw: a kind byte plus marshalled bytes. -/
structure BRaw where
  kind : Nat
  data : MBytes
deriving DecidableEq

/-- The zero bson.Raw{}. -/
def emptyRaw : BRaw := ⟨0, []⟩

/-- eventData: the persistent shape of an event (times as Int seconds,
ObjectId as Nat). -/
structure eventData where
  id : eventID
  uniqueId : Nat
  startTime : Int
  endTime : Int
  target : Target
  startCustomData : BRaw
  endCustomData : BRaw
  otherCustomData : BRaw
  kind : Kind
  owner : Owner
  lockUpdateTime : Int
  error : String
  log : String
  removeDate : Int
  cancelInfo : cancelInfo
  cancelable : Bool
  running : Bool
  allowed : AllowedPermission
  allowedCancel : AllowedPermission
deriving DecidableEq

/-- Event: eventData plus the in-memory log buffer (safe.Buffer as String;
the optional external logWriter is an out-of-scope io.Writer). -/
structure Event where
  data : eventData
  logBuffer : String
deriving DecidableEq

/-- The events collection, keyed by eventID.key with a uniqueness index. -/
abbrev Store := List eventData

def containsId (st : Store) (k : BId) : Bool :=
  st.any (fun r => r.id.key = k)

/-- First row whose primary key matches (mongo FindId). -/
def findId : Store → BId → Option eventData
  | [], _ => none
  | r :: rest, k => if r.id.key = k then some r else findId rest k

/-- Number of rows under a key (the uniqueness index keeps this at most 1). -/
def countId (st : Store) (k : BId) : Nat :=
  (st.filter (fun r => r.id.key = k)).length

/-- mongo RemoveId: removes one document under the key (no error reported to
any caller modelled here that checks it). -/
def removeFirstId : Store → BId → Store
  | [], _ => []
  | r :: rest, k => if r.id.key = k then rest else r :: removeFirstId rest k

/-- mongo Insert: duplicate-key error when a row with the same primary key
exists (the only insert failure modelled; other store faults are out of
scope driver errors). -/
def insertRow (st : Store) (d : eventData) : Except String Store :=
  if containsId st d.id.key then Except.error "duplicate key" else Except.ok (st ++ [d])

/-- mongo UpdateId: replaces the document under the key, not-found otherwise. -/
def replaceFirstId : Store → BId → eventData → Store
  | [], _, _ => []
  | r :: rest, k, d => if r.id.key = k then d :: rest else r :: replaceFirstId rest k d

def updateId (st : Store) (k : BId) (d : eventData) : Except String Store :=
  if containsId st k then Except.ok (replaceFirstId st k d) else Except.error "not found"

/-! ## Go reflection shapes and makeBSONRaw -/

/-- reflect.Kind as far as makeBSONRaw inspects it. -/
inductive GoKind where
  | mapKind
  | structKind
  | arrayKind
  | sliceKind
  | ptrKind (inner : Option GoKind)
  | scalarKind

/-- A Go value as seen through reflection: its %T type name and its kind
(for a non-nil pointer, ptrKind carries the pointee kind). -/
structure GoVal where
  tyName : String
  kind : GoKind

/-- The mgo bson.Marshal driver call, abstract: out of scope per the spec. -/
abbrev Marshal := GoVal → Except String MBytes

/-- makeBSONRaw: nil and nil-pointer inputs give the empty bson.Raw; map and
struct values get BSON kind 3 (document); array and slice values get kind 4;
anything else is a validation error.  The bson.Marshal call on the original
input is the abstract driver parameter. -/
def makeBSONRaw (marshal : Marshal) (input : Option GoVal) : Except String BRaw :=
  match input with
  | none => Except.ok emptyRaw
  | some v =>
    match (match v.kind with | GoKind.ptrKind i => i | k => some k) with
    | none => Except.ok emptyRaw
    | some k =>
      let kindByte : Option Nat :=
        match k with
        | GoKind.mapKind => some 3
        | GoKind.structKind => some 3
        | GoKind.arrayKind => some 4
        | GoKind.sliceKind => some 4
        | _ => none
      match kindByte with
      | none => Except.error ("cannot use type " ++ v.tyName ++ " as event custom data")
      | some kb =>
        match marshal v with
        | Except.error e => Except.error e
        | Except.ok data =>
          if data.length = 0 then
            Except.error ("invalid empty bson object for object " ++ v.tyName)
          else Except.ok ⟨kb, data⟩

/-! ## Errors -/

structure ThrottlingSpec where
  targetType : String
  kindName : String
  max : Int
  time : Int
deriving DecidableEq

inductive EvtErr where
  | validation (msg : String)
  | notCancelable
  | eventNotFound
  | noAllowed
  | noAllowedCancel
  | invalidTargetType
  | throttled (spec : ThrottlingSpec) (target : Target)
  | eventLocked (evt : eventData)
  | custom (msg : String)
deriving DecidableEq

def ErrNoTarget : EvtErr := EvtErr.validation "event target is mandatory"
def ErrNoKind : EvtErr := EvtErr.validation "event kind is mandatory"
def ErrNoOwner : EvtErr := EvtErr.validation "event owner is mandatory"
def ErrNoOpts : EvtErr := EvtErr.validation "event opts is mandatory"
def ErrNoInternalKind : EvtErr := EvtErr.validation "event internal kind is mandatory"
def ErrInvalidOwner : EvtErr := EvtErr.validation "event owner must not be set on internal events"
def ErrInvalidKind : EvtErr := EvtErr.validation "event kind must not be set on internal events"

/-! ## GetTargetType -/

/-- GetTargetType: the switch over the recognized target tags. -/
def GetTargetType (t : String) : Except EvtErr String :=
  if t = "app" then Except.ok "app"
  else if t = "node" then Except.ok "node"
  else if t = "container" then Except.ok "container"
  else if t = "pool" then Except.ok "pool"
  else if t = "service" then Except.ok "service"
  else if t = "service-instance" then Except.ok "service-instance"
  else if t = "team" then Except.ok "team"
  else if t = "user" then Except.ok "user"
  else Except.error EvtErr.invalidTargetType

/-! ## Throttling registry -/

/-- map[string]ThrottlingSpec, modelled as an association list in insertion
order; assignment overwrites in place. -/
abbrev Registry := List (String × ThrottlingSpec)

def lookupReg : Registry → String → Option ThrottlingSpec
  | [], _ => none
  | (k', s) :: rest, k => if k' = k then some s else lookupReg rest k

def setReg : Registry → String → ThrottlingSpec → Registry
  | [], k, s => [(k, s)]
  | (k', s') :: rest, k, s =>
    if k' = k then (k, s) :: rest else (k', s') :: setReg rest k s

/-- SetThrottling: keyed by targetType, or targetType_kindName when a kind
name is present. -/
def SetThrottling (reg : Registry) (spec : ThrottlingSpec) : Registry :=
  let key := if spec.kindName != "" then spec.targetType ++ "_" ++ spec.kindName
             else spec.targetType
  setReg reg key spec

/-- getThrottling: look up the kind-specific key first, then the
target-type-only key. -/
def getThrottling (reg : Registry) (t : Target) (k : Kind) : Option ThrottlingSpec :=
  match lookupReg reg (t.type ++ "_" ++ k.name) with
  | some s => some s
  | none => lookupReg reg t.type

/-- The count query issued by newEvt when a throttling spec applies:
rows matching the target, with starttime strictly greater than now - time,
and matching kind.name when the spec carries a kind name. -/
def countThrottle (st : Store) (t : Target) (s : ThrottlingSpec) (now : Int) : Int :=
  Int.ofNat (st.filter (fun r =>
    r.target.type = t.type ∧ r.target.value = t.value ∧
    now - s.time < r.startTime ∧ (s.kindName = "" ∨ r.kind.name = s.kindName))).length

/-- The throttling step of newEvt: an inactive spec (max ≤ 0 or time ≤ 0) or
no spec applies no throttling; an active spec fails creation when the count
reaches max. -/
def throttleCheck (reg : Registry) (t : Target) (k : Kind) (now : Int) (st : Store) :
    Option EvtErr :=
  match getThrottling reg t k with
  | none => none
  | some tSpec =>
    if 0 < tSpec.max ∧ 0 < tSpec.time then
      if tSpec.max ≤ countThrottle st t tSpec now then
        some (EvtErr.throttled tSpec t)
      else none
    else none

/-! ## Opts and owner/kind resolution -/

/-- auth.Token as newEvt consumes it (IsAppToken / GetAppName / GetUserName). -/
structure AuthToken where
  isApp : Bool
  appName : String
  userName : String

/-- Opts; Kind is a *permission.PermissionScheme modelled by its FullName. -/
structure Opts where
  target : Target
  kind : Option String
  internalKind : String
  owner : Option AuthToken
  rawOwner : Owner
  customData : Option GoVal
  disableLock : Bool
  cancelable : Bool
  allowed : AllowedPermission
  allowedCancel : AllowedPermission

/-- The kind resolution inside newEvt. -/
def resolveKind (opts : Opts) : Except EvtErr Kind :=
  match opts.kind with
  | none =>
    if opts.internalKind = "" then Except.error ErrNoKind
    else Except.ok ⟨"internal", opts.internalKind⟩
  | some scheme => Except.ok ⟨"permission", scheme⟩

/-- The owner resolution inside newEvt. -/
def resolveOwner (opts : Opts) : Owner :=
  match opts.owner with
  | none =>
    if opts.rawOwner.name != "" ∧ opts.rawOwner.type != "" then opts.rawOwner
    else ⟨"internal", ""⟩
  | some tok =>
    if tok.isApp then ⟨"app", tok.appName⟩ else ⟨"user", tok.userName⟩

/-- The eventData constructed by newEvt just before the insert loop. -/
def freshEvtData (opts : Opts) (k : Kind) (o : Owner) (raw : BRaw) (now : Int)
    (uniqID : Nat) : eventData :=
  { id := if opts.disableLock then ⟨⟨"", ""⟩, some uniqID⟩ else ⟨opts.target, none⟩
    uniqueId := uniqID
    startTime := now
    endTime := 0
    target := opts.target
    startCustomData := raw
    endCustomData := emptyRaw
    otherCustomData := emptyRaw
    kind := k
    owner := o
    lockUpdateTime := now
    error := ""
    log := ""
    removeDate := 0
    cancelInfo := default
    cancelable := opts.cancelable
    running := true
    allowed := opts.allowed
    allowedCancel := opts.allowedCancel }

/-! ## done -/

/-- Event.done(evtErr, customData, abort).  The heartbeat remove signal and
the error logging are out-of-scope effects.  Returns the call result, the
store after the call, and the final receiver eventData (the payload written
by the update or insert).  The Go defer of RemoveId on the old locked id runs
after the archived insert, whether or not that insert succeeded. -/
def done (m : Marshal) (evtErr : Option String) (customData : Option GoVal)
    (abort : Bool) (now : Int) (e : Event) (st : Store) :
    Except String Unit × Store × eventData :=
  let d := e.data
  if abort then
    if containsId st d.id.key then (Except.ok (), removeFirstId st d.id.key, d)
    else (Except.error "not found", st, d)
  else
    let d := match evtErr with
      | some msg => { d with error := msg }
      | none =>
        if d.cancelInfo.canceled then { d with error := "canceled by user request" }
        else d
    let d := { d with endTime := now }
    match makeBSONRaw m customData with
    | Except.error msg => (Except.error msg, st, { d with endCustomData := emptyRaw })
    | Except.ok raw =>
      let d := { d with endCustomData := raw, running := false, log := e.logBuffer }
      let d := match findId st d.id.key with
        | some dbEvt => { d with otherCustomData := dbEvt.otherCustomData }
        | none => d
      if d.id.objId.isSome then
        match updateId st d.id.key d with
        | Except.ok st' => (Except.ok (), st', d)
        | Except.error msg => (Except.error msg, st, d)
      else
        let oldKey := d.id.key
        let d := { d with id := ⟨⟨"", ""⟩, some d.uniqueId⟩ }
        match insertRow st d with
        | Except.ok st' => (Except.ok (), removeFirstId st' oldKey, d)
        | Except.error _ => (Except.error "duplicate key", removeFirstId st oldKey, d)

/-- The message of errors.Errorf("event expired, no update for %v", ...),
with the duration printed abstractly. -/
def expiredMsg (d : Int) : String := "event expired, no update for " ++ toString d

/-- Ghost trace of the store-facing actions the claims observe. -/
inductive StoreOp where
  | insertAttempt (k : BId)
  | doneExpired (uniqueId : Nat) (errMsg : String)
  | heartbeatAdd (t : Target)
deriving DecidableEq

/-- checkIsExpired: find the existing row; when its lockUpdateTime is more
than lockExpireTimeout in the past, call its Done with the "expired" error
(ignoring Done's result) and report true. -/
def checkIsExpired (m : Marshal) (now : Int) (k : BId) (st : Store)
    (tr : List StoreOp) : Bool × Store × List StoreOp :=
  match findId st k with
  | some ex =>
    if ex.lockUpdateTime + lockExpireTimeout < now then
      let msg := expiredMsg (now - ex.lockUpdateTime)
      let r := done m (some msg) none false now ⟨ex, ""⟩ st
      (true, r.2.1, tr ++ [StoreOp.doneExpired ex.uniqueId msg])
    else (false, st, tr)
  | none => (false, st, tr)

/-- A row committed by a concurrent creator between two iterations of the
insert loop (none: no interference).  It lands only if its key slot is free,
mirroring the store's uniqueness index. -/
def applyInterf (st : Store) : Option eventData → Store
  | none => st
  | some r => if containsId st r.id.key then st else st ++ [r]

/-- The insert retry loop of newEvt: for i := 0; i < maxRetries+1; i++ with
maxRetries starting at 1.  On success: the block-registry check, then the
heartbeat registration (unless the lock is disabled).  On duplicate key: when
retries remain, checkIsExpired may terminate the holder and the loop retries;
otherwise the existing row is fetched and reported as EventLocked (a vanished
row bumps maxRetries instead).  The loop runs again even after recording
EventLocked, exactly as in the source.  fuel bounds the recursion; the loop
guard i < maxRetries+1 exits with the last recorded error, and fuel
exhaustion (unreachable at the inputs proved about) exits the same way. -/
def insertLoop (m : Marshal) (isBlocked : eventData → Option String)
    (disableLock : Bool) (target : Target) (now : Int) :
    Nat → Nat → Nat → EvtErr → List (Option eventData) → Event → Store →
    List StoreOp → Except EvtErr Event × Store × List StoreOp
  | 0, _, _, lastErr, _, _, st, tr => (Except.error lastErr, st, tr)
  | Nat.succ fuel, i, maxRetries, lastErr, env, evt, st, tr =>
    if maxRetries + 1 ≤ i then (Except.error lastErr, st, tr)
    else
      let st := applyInterf st (env.headD none)
      let env := env.drop 1
      let tr := tr ++ [StoreOp.insertAttempt evt.data.id.key]
      match insertRow st evt.data with
      | Except.ok st' =>
        match isBlocked evt.data with
        | some bmsg =>
          let r := done m (some bmsg) none false now evt st'
          (Except.error (EvtErr.custom bmsg), r.2.1, tr)
        | none =>
          let tr := if !disableLock then tr ++ [StoreOp.heartbeatAdd target] else tr
          (Except.ok evt, st', tr)
      | Except.error _ =>
        if maxRetries ≤ i then
          match findId st evt.data.id.key with
          | some existing =>
            insertLoop m isBlocked disableLock target now fuel (i + 1) maxRetries
              (EvtErr.eventLocked existing) env evt st tr
          | none =>
            insertLoop m isBlocked disableLock target now fuel (i + 1) (maxRetries + 1)
              EvtErr.eventNotFound env evt st tr
        else
          let r := checkIsExpired m now evt.data.id.key st tr
          if r.1 then
            insertLoop m isBlocked disableLock target now fuel (i + 1) maxRetries
              lastErr env evt r.2.1 r.2.2
          else
            match findId st evt.data.id.key with
            | some existing =>
              insertLoop m isBlocked disableLock target now fuel (i + 1) maxRetries
                (EvtErr.eventLocked existing) env evt r.2.1 r.2.2
            | none =>
              insertLoop m isBlocked disableLock target now fuel (i + 1) (maxRetries + 1)
                EvtErr.eventNotFound env evt r.2.1 r.2.2

/-- newEvt: validations, kind and owner resolution, throttling, custom-data
marshalling, then the insert loop.  The lazy updater.start and the db
connection handling are out-of-scope effects; isBlocked is the external block
registry predicate (returning the block error message). -/
def newEvt (m : Marshal) (isBlocked : eventData → Option String) (reg : Registry)
    (now : Int) (uniqID : Nat) (interference : List (Option eventData))
    (opts? : Option Opts) (st : Store) :
    Except EvtErr Event × Store × List StoreOp :=
  match opts? with
  | none => (Except.error ErrNoOpts, st, [])
  | some opts =>
    if ¬(opts.target.IsValid = true) then (Except.error ErrNoTarget, st, [])
    else if opts.allowed.scheme = "" ∧ opts.allowed.contexts = [] then
      (Except.error EvtErr.noAllowed, st, [])
    else if opts.cancelable = true ∧ opts.allowedCancel.scheme = "" ∧
        opts.allowedCancel.contexts = [] then
      (Except.error EvtErr.noAllowedCancel, st, [])
    else
      match resolveKind opts with
      | Except.error e => (Except.error e, st, [])
      | Except.ok k =>
        let o := resolveOwner opts
        match throttleCheck reg opts.target k now st with
        | some terr => (Except.error terr, st, [])
        | none =>
          match makeBSONRaw m opts.customData with
          | Except.error msg => (Except.error (EvtErr.custom msg), st, [])
          | Except.ok raw =>
            let evt : Event := ⟨freshEvtData opts k o raw now uniqID, ""⟩
            insertLoop m isBlocked opts.disableLock opts.target now 8 0 1
              (EvtErr.custom "") interference evt st []

/-- New: requires an owner (token or raw) and a permission-scheme kind. -/
def New (m : Marshal) (isBlocked : eventData → Option String) (reg : Registry)
    (now : Int) (uniqID : Nat) (interference : List (Option eventData))
    (opts? : Option Opts) (st : Store) :
    Except EvtErr Event × Store × List StoreOp :=
  match opts? with
  | none => (Except.error ErrNoOpts, st, [])
  | some opts =>
    if opts.owner.isNone ∧ opts.rawOwner.name = "" ∧ opts.rawOwner.type = "" then
      (Except.error ErrNoOwner, st, [])
    else if opts.kind.isNone then (Except.error ErrNoKind, st, [])
    else newEvt m isBlocked reg now uniqID interference (some opts) st

/-- NewInternal: no token owner, no permission kind, internal kind required. -/
def NewInternal (m : Marshal) (isBlocked : eventData → Option String)
    (reg : Registry) (now : Int) (uniqID : Nat)
    (interference : List (Option eventData)) (opts? : Option Opts) (st : Store) :
    Except EvtErr Event × Store × List StoreOp :=
  match opts? with
  | none => (Except.error ErrNoOpts, st, [])
  | some opts =>
    if opts.owner.isSome then (Except.error ErrInvalidOwner, st, [])
    else if opts.kind.isSome then (Except.error ErrInvalidKind, st, [])
    else if opts.internalKind = "" then (Except.error ErrNoInternalKind, st, [])
    else newEvt m isBlocked reg now uniqID interference (some opts) st

/-! ## Filter and query compilation -/

/-- A bson value as the compiled query uses it. -/
inductive BVal where
  | s (v : String)
  | b (v : Bool)
  | i (v : Int)
  | t (v : Int)
  | doc (fields : List (String × BVal))
  | arr (elems : List BVal)

/-- bson.M, modelled as an association list; map assignment overwrites the
entry under an existing key in place. -/
abbrev Query := List (String × BVal)

def qset (q : Query) (k : String) (v : BVal) : Query :=
  if q.any (fun p => p.1 = k) then
    q.map (fun p => if p.1 = k then (k, v) else p)
  else q ++ [(k, v)]

structure Permission where
  scheme : String
  context : PermissionContext

structure TargetFilter where
  type : String
  values : Option (List String)

structure Filter where
  target : Target := ⟨"", ""⟩
  kindType : String := ""
  kindName : String := ""
  ownerType : String := ""
  ownerName : String := ""
  since : Option Int := none
  untilT : Option Int := none
  running : Option Bool := none
  includeRemoved : Bool := false
  errorOnly : Bool := false
  raw : Option Query := none
  allowedTargets : Option (List TargetFilter) := none
  permissions : Option (List Permission) := none
  limit : Int := 0
  skip : Int := 0
  sort : String := ""

/-- PruneUserValues: clear raw, allowedTargets and permissions, and clamp
limit into [1, filterMaxLimit]. -/
def Filter.pruneUserValues (f : Filter) : Filter :=
  let f := { f with raw := none, allowedTargets := none, permissions := none }
  if filterMaxLimit < f.limit ∨ f.limit ≤ 0 then { f with limit := filterMaxLimit }
  else f

def addCtxToGroup : List (String × List PermissionContext) → String →
    PermissionContext → List (String × List PermissionContext)
  | [], sch, c => [(sch, [c])]
  | (sch', cs) :: rest, sch, c =>
    if sch' = sch then (sch, cs ++ [c]) :: rest
    else (sch', cs) :: addCtxToGroup rest sch c

/-- permMap: permissions grouped by scheme FullName.  The Go map iterates in
nondeterministic order; the model fixes first-occurrence order. -/
def permGroup (ps : List Permission) : List (String × List PermissionContext) :=
  ps.foldl (fun acc p => addCtxToGroup acc p.scheme p.context) []

/-- The context list of one per-scheme clause: a global context anywhere
nullifies it (the Go loop sets ctxsBson to nil and breaks); otherwise every
context becomes a (ctxtype, value) document.  An empty list stays a non-nil
empty slice. -/
def buildCtxs : List PermissionContext → Option (List BVal)
  | [] => some []
  | c :: rest =>
    if c.ctxType = ctxGlobal then none
    else match buildCtxs rest with
      | none => none
      | some l => some (BVal.doc [("ctxtype", BVal.s c.ctxType),
          ("value", BVal.s c.value)] :: l)

/-- strings.Replace(perm, ".", "\\.", -1): every dot becomes a
backslash-dot (specialized executable model of the stdlib call). -/
def escapeDots (s : String) : String :=
  ⟨s.data.foldr (fun c acc => if c = '.' then '\\' :: '.' :: acc else c :: acc) []⟩

/-- One per-scheme clause: allowed.scheme matched by the anchored
dot-escaped prefix regex, plus the contexts overlap clause unless a global
context nullified it. -/
def permClause (perm : String) (ctxs : List PermissionContext) : BVal :=
  let base := [("allowed.scheme",
    BVal.doc [("$regex", BVal.s ("^" ++ escapeDots perm))])]
  match buildCtxs ctxs with
  | some l => BVal.doc (base ++ [("allowed.contexts", BVal.doc [("$in", BVal.arr l)])])
  | none => BVal.doc base

def permOrBlock (ps : List Permission) : List BVal :=
  (permGroup ps).map (fun g => permClause g.1 g.2)

/-- One allowedTargets clause: target.type, plus target.value in the value
list when one is supplied. -/
def targetClause (tf : TargetFilter) : BVal :=
  let base := [("target.type", BVal.s tf.type)]
  match tf.values with
  | some vs => BVal.doc (base ++ [("target.value", BVal.doc [("$in", BVal.arr (vs.map BVal.s))])])
  | none => BVal.doc base

inductive QErr where
  | invalidQuery
deriving DecidableEq

/-- Filter.toQuery, clause for clause in source order.  Both the permissions
block and the allowedTargets block assign query["$or"]; the later assignment
overwrites the earlier one, exactly as the Go map assignment does.  An
allowedTargets slice that is present and empty yields errInvalidQuery.  The
raw clauses merge last and may override. -/
def Filter.toQuery (f : Filter) : Except QErr Query :=
  let query : Query := []
  let query :=
    match f.permissions with
    | none => query
    | some ps => qset query "$or" (BVal.arr (permOrBlock ps))
  let query? : Except QErr Query :=
    match f.allowedTargets with
    | none => Except.ok query
    | some ats =>
      let orBlock := ats.map targetClause
      if orBlock.length = 0 then Except.error QErr.invalidQuery
      else Except.ok (qset query "$or" (BVal.arr orBlock))
  match query? with
  | Except.error e => Except.error e
  | Except.ok query =>
    let query := if f.target.type != "" then qset query "target.type" (BVal.s f.target.type) else query
    let query := if f.target.value != "" then qset query "target.value" (BVal.s f.target.value) else query
    let query := if f.kindType != "" then qset query "kind.type" (BVal.s f.kindType) else query
    let query := if f.kindName != "" then qset query "kind.name" (BVal.s f.kindName) else query
    let query := if f.ownerType != "" then qset query "owner.type" (BVal.s f.ownerType) else query
    let query := if f.ownerName != "" then qset query "owner.name" (BVal.s f.ownerName) else query
    let timeParts : List BVal :=
      (match f.since with
       | some ts => [BVal.doc [("starttime", BVal.doc [("$gte", BVal.t ts)])]]
       | none => []) ++
      (match f.untilT with
       | some tu => [BVal.doc [("starttime", BVal.doc [("$lte", BVal.t tu)])]]
       | none => [])
    let query := if timeParts.length ≠ 0 then qset query "$and" (BVal.arr timeParts) else query
    let query := match f.running with
      | some b => qset query "running" (BVal.b b)
      | none => query
    let query := if !f.includeRemoved then qset query "removedate" (BVal.doc [("$exists", BVal.b false)]) else query
    let query := if f.errorOnly then qset query "error" (BVal.doc [("$ne", BVal.s "")]) else query
    let query := match f.raw with
      | some kvs => kvs.foldl (fun q p => qset q p.1 p.2) query
      | none => query
    Except.ok query

/-- List: the query phase around the store find (the find itself is the
out-of-scope driver, passed as runFind taking query, sort, limit and skip).
errInvalidQuery from toQuery returns nil, nil: an empty result and no error;
it is the only error toQuery produces. -/
def listEvts (runFind : Query → String → Int → Int → Except String (List eventData))
    (filter : Option Filter) : Except String (List eventData) :=
  match filter with
  | none => runFind [] "-starttime" 0 0
  | some f =>
    let limit := if f.limit ≠ 0 then f.limit else filterMaxLimit
    let sort := if f.sort != "" then f.sort else "-starttime"
    let skip := if 0 < f.skip then f.skip else 0
    match f.toQuery with
    | Except.error QErr.invalidQuery => Except.ok []
    | Except.ok q => runFind q sort limit skip

/-- The archived row Done writes for an expired lock holder: the expired
error, endTime stamped, running cleared, log snapshot of the empty buffer,
otherCustomData re-read from the store (unchanged), id rewritten to the
uniqueId form. -/
def expiredArchive (ex : eventData) (now : Int) : eventData :=
  { ex with
    error := expiredMsg (now - ex.lockUpdateTime)
    endTime := now
    endCustomData := emptyRaw
    running := false
    log := ""
    otherCustomData := ex.otherCustomData
    id := ⟨⟨"", ""⟩, some ex.uniqueId⟩ }

/-! ## Witness fixtures -/

/-- The spec's list of fifteen known target tags (sec. 3 of the spec), kept
for comparison with what GetTargetType actually recognizes. -/
def specTargetTags : List String :=
  ["app", "node", "container", "pool", "service", "service-instance", "team",
   "user", "iaas", "role", "platform", "plan", "node-container", "install-host",
   "event-block"]

/-- The target tags the GetTargetType switch recognizes. -/
def codeTargetTags : List String :=
  ["app", "node", "container", "pool", "service", "service-instance", "team", "user"]

/-- A zero-valued eventData row, updated field-wise to build concrete rows. -/
def baseRow : eventData :=
  { id := ⟨⟨"", ""⟩, none⟩
    uniqueId := 0
    startTime := 0
    endTime := 0
    target := ⟨"", ""⟩
    startCustomData := emptyRaw
    endCustomData := emptyRaw
    otherCustomData := emptyRaw
    kind := ⟨"", ""⟩
    owner := ⟨"", ""⟩
    lockUpdateTime := 0
    error := ""
    log := ""
    removeDate := 0
    cancelInfo := default
    cancelable := false
    running := false
    allowed := ⟨"", []⟩
    allowedCancel := ⟨"", []⟩ }

/-- A trivial driver marshaller: one byte for everything. -/
def mwTriv : Marshal := fun _ => Except.ok [1]

/-- A block registry that blocks nothing. -/
def noBlock : eventData → Option String := fun _ => none

def regThr : Registry := [("app_app.deploy", ⟨"app", "app.deploy", 2, 3600⟩)]

def rowThr1 : eventData :=
  { baseRow with
    id := ⟨⟨"", ""⟩, some 1⟩
    uniqueId := 1
    target := ⟨"app", "myapp"⟩
    kind := ⟨"permission", "app.deploy"⟩
    startTime := 900 }

def rowThr2 : eventData :=
  { baseRow with
    id := ⟨⟨"", ""⟩, some 2⟩
    uniqueId := 2
    target := ⟨"app", "myapp"⟩
    kind := ⟨"permission", "app.deploy"⟩
    startTime := 950 }

def optsThr : Opts :=
  { target := ⟨"app", "myapp"⟩
    kind := some "app.deploy"
    internalKind := ""
    owner := none
    rawOwner := ⟨"user", "alice"⟩
    customData := none
    disableLock := false
    cancelable := false
    allowed := ⟨"app.read", []⟩
    allowedCancel := ⟨"", []⟩ }

def exC1 : eventData :=
  { baseRow with
    id := ⟨⟨"app", "myapp"⟩, none⟩
    uniqueId := 42
    target := ⟨"app", "myapp"⟩
    startTime := 100
    lockUpdateTime := 100
    running := true }

def optsC1 : Opts :=
  { target := ⟨"app", "myapp"⟩
    kind := some "app.deploy"
    internalKind := ""
    owner := none
    rawOwner := ⟨"user", "alice"⟩
    customData := none
    disableLock := false
    cancelable := false
    allowed := ⟨"app.read", []⟩
    allowedCancel := ⟨"", []⟩ }

/-- A cancelable running event whose cancellation has been asked and
acknowledged. -/
def cancEvt : Event :=
  ⟨{ baseRow with
     id := ⟨⟨"app", "x"⟩, none⟩
     uniqueId := 7
     target := ⟨"app", "x"⟩
     cancelInfo := ⟨"alice", 2, 3, "stop", true, true⟩
     cancelable := true
     running := true }, ""⟩

/-! ## Store lemmas -/

theorem findId_eq_some_key {st : Store} {k : BId} {ex : eventData}
    (h : findId st k = some ex) : ex.id.key = k := by
  induction st with
  | nil => simp [findId] at h
  | cons r rest ih =>
    rw [findId] at h
    by_cases hr : r.id.key = k
    · rw [if_pos hr] at h
      have := Option.some.inj h
      subst this
      exact hr
    · rw [if_neg hr] at h
      exact ih h

theorem objId_none_of_key_tgt {id : eventID} {t : Target}
    (h : id.key = BId.tgt t) : id.objId = none := by
  obtain ⟨tg, obj⟩ := id
  cases obj with
  | none => rfl
  | some n => simp [eventID.key] at h

theorem contains_of_findId {st : Store} {k : BId} {ex : eventData}
    (h : findId st k = some ex) : containsId st k = true := by
  induction st with
  | nil => simp [findId] at h
  | cons r rest ih =>
    rw [findId] at h
    by_cases hr : r.id.key = k
    · simp [containsId, hr]
    · rw [if_neg hr] at h
      have := ih h
      simp [containsId, hr] at this ⊢
      exact this

theorem contains_append (l1 l2 : Store) (k : BId) :
    containsId (l1 ++ l2) k = (containsId l1 k || containsId l2 k) := by
  simp [containsId, List.any_append]

theorem contains_false_of_count_zero {st : Store} {k : BId}
    (h : countId st k = 0) : containsId st k = false := by
  induction st with
  | nil => simp [containsId]
  | cons r rest ih =>
    by_cases hr : r.id.key = k
    · exfalso
      simp [countId, List.filter_cons, hr] at h
    · have h' : countId rest k = 0 := by
        simpa [countId, List.filter_cons, hr] using h
      have := ih h'
      simpa [containsId, hr] using this

theorem count_removeFirst {st : Store} {k : BId} (h : countId st k = 1) :
    containsId (removeFirstId st k) k = false := by
  induction st with
  | nil => simp [removeFirstId, containsId]
  | cons r rest ih =>
    by_cases hr : r.id.key = k
    · rw [removeFirstId, if_pos hr]
      apply contains_false_of_count_zero
      have h2 := h
      simp [countId, List.filter_cons, hr] at h2
      simpa [countId] using h2
    · rw [removeFirstId, if_neg hr]
      have h' : countId rest k = 1 := by
        simpa [countId, List.filter_cons, hr] using h
      have := ih h'
      simpa [containsId, hr] using this

theorem removeFirst_append_left {l1 : Store} (l2 : Store) {k : BId}
    (h : containsId l1 k = true) :
    removeFirstId (l1 ++ l2) k = removeFirstId l1 k ++ l2 := by
  induction l1 with
  | nil => simp [containsId] at h
  | cons r rest ih =>
    by_cases hr : r.id.key = k
    · simp [removeFirstId, hr]
    · have h' : containsId rest k = true := by
        simpa [containsId, hr] using h
      simp [removeFirstId, hr, ih h']

theorem findId_append_right {l1 : Store} (l2 : Store) {k : BId}
    (h : containsId l1 k = false) :
    findId (l1 ++ l2) k = findId l2 k := by
  induction l1 with
  | nil => simp
  | cons r rest ih =>
    have hr : ¬(r.id.key = k) := by
      intro hc
      simp [containsId, hc] at h
    have h' : containsId rest k = false := by
      simpa [containsId, hr] using h
    simp [findId, hr, ih h']

/-! ## Claim theorems -/

/-- Claim C4 (counterexample): "iaas" is among the fifteen tags the claim
says GetTargetType accepts, yet GetTargetType rejects it with the
invalid-target-type error. -/
theorem c4_fifteen_tags_refuted :
    "iaas" ∈ specTargetTags ∧
    GetTargetType "iaas" = Except.error EvtErr.invalidTargetType := by
  refine ⟨?_, rfl⟩
  simp [specTargetTags]

/-- Claim C4 (amended): GetTargetType accepts exactly the eight tags app,
node, container, pool, service, service-instance, team and user, returning
the matching TargetType, and returns ErrInvalidTargetType for every other
string (the remaining seven TargetType constants exist but are not
recognized by this switch). -/
theorem c4_getTargetType_amended (t : String) :
    GetTargetType t =
      if t ∈ codeTargetTags then Except.ok t
      else Except.error EvtErr.invalidTargetType := by
  by_cases h1 : t = "app"
  · subst h1; rfl
  by_cases h2 : t = "node"
  · subst h2; rfl
  by_cases h3 : t = "container"
  · subst h3; rfl
  by_cases h4 : t = "pool"
  · subst h4; rfl
  by_cases h5 : t = "service"
  · subst h5; rfl
  by_cases h6 : t = "service-instance"
  · subst h6; rfl
  by_cases h7 : t = "team"
  · subst h7; rfl
  by_cases h8 : t = "user"
  · subst h8; rfl
  simp [GetTargetType, codeTargetTags, h1, h2, h3, h4, h5, h6, h7, h8]

/-- Claim C7: PruneUserValues clears Raw, AllowedTargets and Permissions and
leaves Limit in [1, 100]: a limit of zero or below becomes filterMaxLimit =
100 and a limit above 100 is clamped to 100. -/
theorem c7_pruneUserValues (f : Filter) :
    (f.pruneUserValues).raw = none ∧
    (f.pruneUserValues).allowedTargets = none ∧
    (f.pruneUserValues).permissions = none ∧
    (1 ≤ (f.pruneUserValues).limit ∧ (f.pruneUserValues).limit ≤ 100) ∧
    (f.limit ≤ 0 → (f.pruneUserValues).limit = 100) ∧
    (100 < f.limit → (f.pruneUserValues).limit = 100) := by
  simp only [Filter.pruneUserValues, filterMaxLimit]
  split_ifs with h
  · refine ⟨rfl, rfl, rfl, ⟨?_, ?_⟩, fun _ => rfl, fun _ => rfl⟩
    · show (1 : Int) ≤ 100
      norm_num
    · show (100 : Int) ≤ 100
      norm_num
  · replace h : ¬((100 : Int) < f.limit ∨ f.limit ≤ 0) := h
    push_neg at h
    obtain ⟨ha, hb⟩ := h
    refine ⟨rfl, rfl, rfl, ⟨?_, ?_⟩,
      fun hc => absurd hc (by omega), fun hc => absurd hc (by omega)⟩
    · show (1 : Int) ≤ f.limit
      omega
    · show f.limit ≤ (100 : Int)
      omega

/-- Claim C7 witness: a user filter with limit 250 is clamped to 100 with raw
cleared, and one with limit 0 becomes 100. -/
theorem c7_pruneUserValues_witness :
    (Filter.pruneUserValues { limit := 250 }).raw = none ∧
    (Filter.pruneUserValues { limit := 250 }).limit = 100 ∧
    (Filter.pruneUserValues { limit := 0 }).limit = 100 :=
  ⟨(c7_pruneUserValues { limit := 250 }).1,
   (c7_pruneUserValues { limit := 250 }).2.2.2.2.2 (by norm_num),
   (c7_pruneUserValues { limit := 0 }).2.2.2.2.1 (by norm_num)⟩

/-- Claim C5: a Filter whose AllowedTargets is supplied and empty makes List
return an empty result and no error, whatever the store driver would do. -/
theorem c5_list_empty_allowedTargets
    (runFind : Query → String → Int → Int → Except String (List eventData))
    (f : Filter) (h : f.allowedTargets = some []) :
    listEvts runFind (some f) = Except.ok [] := by
  cases hp : f.permissions with
  | none => simp [listEvts, Filter.toQuery, h, hp]
  | some ps => simp [listEvts, Filter.toQuery, h, hp]

/-- Claim C5 witness: the empty allowed-targets filter yields ok-empty even
when the store driver would fault. -/
theorem c5_list_empty_allowedTargets_witness :
    listEvts (fun _ _ _ _ => Except.error "store fault")
      (some { allowedTargets := some [] }) = Except.ok [] :=
  c5_list_empty_allowedTargets (fun _ _ _ _ => Except.error "store fault")
    { allowedTargets := some [] } rfl

/-- Claim C2 (code evaluated at the failing input): with one permission
(scheme app.deploy, context team t1) and one allowed target (type app), the
compiled query's only restriction is the allowed-targets disjunction plus the
removedate clause: the permissions block's $or entry was overwritten by the
allowedTargets assignment to the same "$or" key, so no allowed.scheme or
allowed.contexts clause survives, contradicting the claim that both
restrictions apply. -/
theorem c2_permissions_or_overwritten :
    Filter.toQuery
      { permissions := some [⟨"app.deploy", ⟨"team", "t1"⟩⟩],
        allowedTargets := some [⟨"app", none⟩] } =
    Except.ok [("$or", BVal.arr [BVal.doc [("target.type", BVal.s "app")]]),
               ("removedate", BVal.doc [("$exists", BVal.b false)])] := rfl

/-- Claim C3 (counterexample): a scalar input (an int) does not marshal to an
empty field as the claim states; makeBSONRaw rejects it with the
cannot-use-type validation error. -/
theorem c3_scalar_to_empty_refuted :
    makeBSONRaw (fun _ => Except.ok [1]) (some ⟨"int", GoKind.scalarKind⟩) =
      Except.error "cannot use type int as event custom data" ∧
    makeBSONRaw (fun _ => Except.ok [1]) (some ⟨"int", GoKind.scalarKind⟩) ≠
      Except.ok emptyRaw := by
  refine ⟨rfl, ?_⟩
  simp [makeBSONRaw]

/-- Claim C3 (amended): makeBSONRaw classifies by reflection shape: nil and
nil-pointer inputs marshal to the empty (absent) field; map and struct values
(directly or behind one non-nil pointer) marshal to a BSON document (kind 3);
array and slice values likewise marshal to a BSON array (kind 4); every other
shape, scalars and pointers-to-pointers included, fails with the
cannot-use-type validation error. -/
theorem c3_makeBSONRaw_amended (m : Marshal) (v : GoVal) (bs : MBytes)
    (hm : m v = Except.ok bs) (hbs : bs ≠ []) :
    makeBSONRaw m none = Except.ok emptyRaw ∧
    (v.kind = GoKind.ptrKind none → makeBSONRaw m (some v) = Except.ok emptyRaw) ∧
    ((v.kind = GoKind.mapKind ∨ v.kind = GoKind.structKind) →
      makeBSONRaw m (some v) = Except.ok ⟨3, bs⟩) ∧
    ((v.kind = GoKind.arrayKind ∨ v.kind = GoKind.sliceKind) →
      makeBSONRaw m (some v) = Except.ok ⟨4, bs⟩) ∧
    (∀ k, v.kind = GoKind.ptrKind (some k) →
      ((k = GoKind.mapKind ∨ k = GoKind.structKind) →
        makeBSONRaw m (some v) = Except.ok ⟨3, bs⟩) ∧
      ((k = GoKind.arrayKind ∨ k = GoKind.sliceKind) →
        makeBSONRaw m (some v) = Except.ok ⟨4, bs⟩)) ∧
    (v.kind = GoKind.scalarKind →
      makeBSONRaw m (some v) =
        Except.error ("cannot use type " ++ v.tyName ++ " as event custom data")) ∧
    (∀ k, v.kind = GoKind.ptrKind (some (GoKind.ptrKind k)) →
      makeBSONRaw m (some v) =
        Except.error ("cannot use type " ++ v.tyName ++ " as event custom data")) := by
  obtain ⟨ty, kd⟩ := v
  simp only at hm ⊢
  have hlen : ¬(bs.length = 0) := by
    simpa [List.length_eq_zero] using hbs
  refine ⟨rfl, ?_, ?_, ?_, ?_, ?_, ?_⟩
  · intro h
    subst h
    rfl
  · intro h
    rcases h with h | h <;> subst h <;> simp [makeBSONRaw, hm, hlen]
  · intro h
    rcases h with h | h <;> subst h <;> simp [makeBSONRaw, hm, hlen]
  · intro k h
    subst h
    refine ⟨?_, ?_⟩
    · intro hk
      rcases hk with hk | hk <;> subst hk <;> simp [makeBSONRaw, hm, hlen]
    · intro hk
      rcases hk with hk | hk <;> subst hk <;> simp [makeBSONRaw, hm, hlen]
  · intro h
    subst h
    rfl
  · intro k h
    subst h
    rfl

/-- Claim C3 witness: a map marshals to a kind-3 document and nil marshals to
the empty field, under a driver returning one byte. -/
theorem c3_makeBSONRaw_amended_witness :
    makeBSONRaw (fun _ => Except.ok [1]) (some ⟨"map[string]string", GoKind.mapKind⟩) =
      Except.ok ⟨3, [1]⟩ ∧
    makeBSONRaw (fun _ => Except.ok [1]) none = Except.ok emptyRaw :=
  ⟨(c3_makeBSONRaw_amended (fun _ => Except.ok [1])
      ⟨"map[string]string", GoKind.mapKind⟩ [1] rfl (by simp)).2.2.1 (Or.inl rfl),
   (c3_makeBSONRaw_amended (fun _ => Except.ok [1])
      ⟨"map[string]string", GoKind.mapKind⟩ [1] rfl (by simp)).1⟩

/-- Claim C8: when Done runs (not aborting) on an event whose
cancelInfo.Canceled is set, the error written to the persisted row is the
caller's error message when an explicit error was passed, and "canceled by
user request" when the caller passed nil. -/
theorem c8_done_canceled_error (m : Marshal) (evtErr : Option String)
    (now : Int) (e : Event) (st : Store)
    (hc : e.data.cancelInfo.canceled = true) :
    (done m evtErr none false now e st).2.2.error =
      match evtErr with
      | some msg => msg
      | none => "canceled by user request" := by
  cases evtErr with
  | none =>
    simp only [done, makeBSONRaw, hc, Bool.false_eq_true, if_false, if_true]
    cases hf : findId st e.data.id.key
    all_goals simp only [hf]
    all_goals split <;> split <;> rfl
  | some msg =>
    simp only [done, makeBSONRaw, Bool.false_eq_true, if_false]
    cases hf : findId st e.data.id.key
    all_goals simp only [hf]
    all_goals split <;> split <;> rfl

/-- Claim C8 witness: Done(nil) on a canceled event records the error
"canceled by user request"; Done with an explicit error records its message. -/
theorem c8_done_canceled_error_witness :
    (done mwTriv none none false 9 cancEvt []).2.2.error = "canceled by user request" ∧
    (done mwTriv (some "boom") none false 9 cancEvt []).2.2.error = "boom" :=
  ⟨c8_done_canceled_error mwTriv none 9 cancEvt [] rfl,
   c8_done_canceled_error mwTriv (some "boom") 9 cancEvt [] rfl⟩

/-- Claim C6: throttling lookup prefers the kind-specific key
targetType_kindName and falls back to the target-type-only key; a spec with
max ≤ 0 or time ≤ 0 applies no throttling; an active spec compares the count
of rows matching the target (and the kind name when the spec has one) with
startTime > now - time against max, and a count at max or above makes event
creation fail with the Throttled error carrying that spec and target. -/
theorem c6_throttling (reg : Registry) (tg : Target) (k : Kind) (now : Int)
    (st : Store) :
    (∀ s, lookupReg reg (tg.type ++ "_" ++ k.name) = some s →
      getThrottling reg tg k = some s) ∧
    (lookupReg reg (tg.type ++ "_" ++ k.name) = none →
      getThrottling reg tg k = lookupReg reg tg.type) ∧
    (∀ s, getThrottling reg tg k = some s → s.max ≤ 0 ∨ s.time ≤ 0 →
      throttleCheck reg tg k now st = none) ∧
    (∀ s, getThrottling reg tg k = some s → 0 < s.max → 0 < s.time →
      throttleCheck reg tg k now st =
        (if s.max ≤ countThrottle st tg s now then some (EvtErr.throttled s tg)
         else none)) ∧
    (∀ (m : Marshal) (isBlocked : eventData → Option String) (uniqID : Nat)
        (env : List (Option eventData)) (opts : Opts) (s : ThrottlingSpec),
      opts.target = tg →
      opts.target.IsValid = true →
      ¬(opts.allowed.scheme = "" ∧ opts.allowed.contexts = []) →
      ¬(opts.cancelable = true ∧ opts.allowedCancel.scheme = "" ∧
        opts.allowedCancel.contexts = []) →
      resolveKind opts = Except.ok k →
      getThrottling reg tg k = some s → 0 < s.max → 0 < s.time →
      s.max ≤ countThrottle st tg s now →
      newEvt m isBlocked reg now uniqID env (some opts) st =
        (Except.error (EvtErr.throttled s tg), st, [])) := by
  refine ⟨?_, ?_, ?_, ?_, ?_⟩
  · intro s h
    simp [getThrottling, h]
  · intro h
    simp [getThrottling, h]
  · intro s h hle
    have hng : ¬(0 < s.max ∧ 0 < s.time) := by omega
    simp [throttleCheck, h, hng]
  · intro s h h1 h2
    simp [throttleCheck, h, h1, h2]
  · intro m isBlocked uniqID env opts s hot hval ha hcanc hk hg h1 h2 hcnt
    subst hot
    have hth : throttleCheck reg opts.target k now st =
        some (EvtErr.throttled s opts.target) := by
      simp [throttleCheck, hg, h1, h2, hcnt]
    simp [newEvt, hval, ha, hcanc, hk, hth]

/-- Claim C6 witness: a spec (app, app.deploy, max 2, window 3600) is found
under its kind-specific key, and with two matching recent rows a third
creation is throttled. -/
theorem c6_throttling_witness :
    getThrottling regThr ⟨"app", "myapp"⟩ ⟨"permission", "app.deploy"⟩ =
      some ⟨"app", "app.deploy", 2, 3600⟩ ∧
    newEvt mwTriv noBlock regThr 1000 9 [] (some optsThr) [rowThr1, rowThr2] =
      (Except.error (EvtErr.throttled ⟨"app", "app.deploy", 2, 3600⟩ ⟨"app", "myapp"⟩),
       [rowThr1, rowThr2], []) := by
  constructor
  · exact (c6_throttling regThr ⟨"app", "myapp"⟩ ⟨"permission", "app.deploy"⟩ 1000
      [rowThr1, rowThr2]).1 ⟨"app", "app.deploy", 2, 3600⟩ rfl
  · exact (c6_throttling regThr ⟨"app", "myapp"⟩ ⟨"permission", "app.deploy"⟩ 1000
      [rowThr1, rowThr2]).2.2.2.2 mwTriv noBlock 9 [] optsThr ⟨"app", "app.deploy", 2, 3600⟩
      rfl rfl (by decide) (by decide) rfl rfl (by decide) (by decide) (by decide)

set_option maxHeartbeats 2000000 in
/-- Claim C1: when a lock-enabled creation hits a duplicate key on the target
id: a live holder (lockUpdateTime within lockExpireTimeout of now) makes
creation fail with EventLocked carrying the existing row and leaves the store
unchanged; an expired holder is terminated through its Done with the expired
error (migrating that row to the archived uniqueId form) and the insert is
retried exactly once (two insert attempts in the trace), succeeding when no
concurrent creator interferes; if a concurrent creator re-locks the target
before the retry, the retry's duplicate is reported as EventLocked carrying
that creator's row. -/
theorem c1_newEvt_duplicate_key
    (m : Marshal) (isBlocked : eventData → Option String) (reg : Registry)
    (now : Int) (uniqID : Nat) (opts : Opts) (st : Store) (ex : eventData) (k : Kind)
    (hval : opts.target.IsValid = true)
    (ha : ¬(opts.allowed.scheme = "" ∧ opts.allowed.contexts = []))
    (hcanc : ¬(opts.cancelable = true ∧ opts.allowedCancel.scheme = "" ∧
      opts.allowedCancel.contexts = []))
    (hk : resolveKind opts = Except.ok k)
    (hthr : throttleCheck reg opts.target k now st = none)
    (hcd : opts.customData = none)
    (hdl : opts.disableLock = false)
    (hfind : findId st (BId.tgt opts.target) = some ex) :
    (¬(ex.lockUpdateTime + lockExpireTimeout < now) →
      newEvt m isBlocked reg now uniqID [] (some opts) st =
        (Except.error (EvtErr.eventLocked ex), st,
         [StoreOp.insertAttempt (BId.tgt opts.target),
          StoreOp.insertAttempt (BId.tgt opts.target)])) ∧
    (ex.lockUpdateTime + lockExpireTimeout < now →
      countId st (BId.tgt opts.target) = 1 →
      containsId st (BId.oid ex.uniqueId) = false →
      isBlocked (freshEvtData opts k (resolveOwner opts) emptyRaw now uniqID) = none →
      newEvt m isBlocked reg now uniqID [] (some opts) st =
        (Except.ok ⟨freshEvtData opts k (resolveOwner opts) emptyRaw now uniqID, ""⟩,
         (removeFirstId st (BId.tgt opts.target) ++ [expiredArchive ex now]) ++
           [freshEvtData opts k (resolveOwner opts) emptyRaw now uniqID],
         [StoreOp.insertAttempt (BId.tgt opts.target),
          StoreOp.doneExpired ex.uniqueId (expiredMsg (now - ex.lockUpdateTime)),
          StoreOp.insertAttempt (BId.tgt opts.target),
          StoreOp.heartbeatAdd opts.target])) ∧
    (∀ comp : eventData, ex.lockUpdateTime + lockExpireTimeout < now →
      countId st (BId.tgt opts.target) = 1 →
      containsId st (BId.oid ex.uniqueId) = false →
      comp.id.key = BId.tgt opts.target →
      newEvt m isBlocked reg now uniqID [none, some comp] (some opts) st =
        (Except.error (EvtErr.eventLocked comp),
         (removeFirstId st (BId.tgt opts.target) ++ [expiredArchive ex now]) ++ [comp],
         [StoreOp.insertAttempt (BId.tgt opts.target),
          StoreOp.doneExpired ex.uniqueId (expiredMsg (now - ex.lockUpdateTime)),
          StoreOp.insertAttempt (BId.tgt opts.target)])) := by
  have hkey : ex.id.key = BId.tgt opts.target := findId_eq_some_key hfind
  have hobj : ex.id.objId = none := objId_none_of_key_tgt hkey
  have hcons : containsId st (BId.tgt opts.target) = true := contains_of_findId hfind
  have htgt : ex.id.target = opts.target := by
    have h2 : ex.id.key = BId.tgt ex.id.target := by
      simp [eventID.key, hobj]
    exact BId.tgt.inj (h2.symm.trans hkey)
  have hkey2 : (freshEvtData opts k (resolveOwner opts) emptyRaw now uniqID).id.key =
      BId.tgt opts.target := by
    simp [freshEvtData, hdl, eventID.key]
  have hnew : ∀ env : List (Option eventData),
      newEvt m isBlocked reg now uniqID env (some opts) st =
        insertLoop m isBlocked opts.disableLock opts.target now 8 0 1 (EvtErr.custom "")
          env ⟨freshEvtData opts k (resolveOwner opts) emptyRaw now uniqID, ""⟩ st [] := by
    intro env
    simp [newEvt, hval, ha, hcanc, hk, hthr, hcd, makeBSONRaw]
  have hdup : insertRow st (freshEvtData opts k (resolveOwner opts) emptyRaw now uniqID) =
      Except.error "duplicate key" := by
    simp [insertRow, hkey2, hcons]
  refine ⟨?_, ?_, ?_⟩
  · intro hlive
    have hchk : ∀ tr, checkIsExpired m now (BId.tgt opts.target) st tr = (false, st, tr) := by
      intro tr
      simp [checkIsExpired, hfind, hlive]
    rw [hnew []]
    simp [insertLoop, applyInterf, hdup, hchk, hkey2, hfind]
  · intro hexp hcount hfree hnb
    have hdone : done m (some (expiredMsg (now - ex.lockUpdateTime))) none false now
        ⟨ex, ""⟩ st =
        (Except.ok (), removeFirstId st (BId.tgt opts.target) ++ [expiredArchive ex now],
          expiredArchive ex now) := by
      simp [done, makeBSONRaw, insertRow, eventID.key, expiredArchive, hkey, hfind, hobj,
        htgt, hfree, removeFirst_append_left, hcons]
    have hchkB : ∀ tr, checkIsExpired m now (BId.tgt opts.target) st tr =
        (true, removeFirstId st (BId.tgt opts.target) ++ [expiredArchive ex now],
         tr ++ [StoreOp.doneExpired ex.uniqueId (expiredMsg (now - ex.lockUpdateTime))]) := by
      intro tr
      simp [checkIsExpired, hfind, hexp, hdone]
    have hrm : containsId (removeFirstId st (BId.tgt opts.target)) (BId.tgt opts.target) =
        false := count_removeFirst hcount
    have harch : containsId [expiredArchive ex now] (BId.tgt opts.target) = false := by
      simp [containsId, expiredArchive, eventID.key]
    have hc2 : containsId
        (removeFirstId st (BId.tgt opts.target) ++ [expiredArchive ex now])
        (BId.tgt opts.target) = false := by
      rw [contains_append, hrm, harch]
      rfl
    have hins2 : insertRow
        (removeFirstId st (BId.tgt opts.target) ++ [expiredArchive ex now])
        (freshEvtData opts k (resolveOwner opts) emptyRaw now uniqID) =
        Except.ok ((removeFirstId st (BId.tgt opts.target) ++ [expiredArchive ex now]) ++
          [freshEvtData opts k (resolveOwner opts) emptyRaw now uniqID]) := by
      simp [insertRow, hkey2, hc2]
    rw [hnew []]
    simp [insertLoop, applyInterf, hkey2, hdup, hchkB, hins2, hnb, hdl]
  · intro comp hexp hcount hfree hcompk
    have hdone : done m (some (expiredMsg (now - ex.lockUpdateTime))) none false now
        ⟨ex, ""⟩ st =
        (Except.ok (), removeFirstId st (BId.tgt opts.target) ++ [expiredArchive ex now],
          expiredArchive ex now) := by
      simp [done, makeBSONRaw, insertRow, eventID.key, expiredArchive, hkey, hfind, hobj,
        htgt, hfree, removeFirst_append_left, hcons]
    have hchkB : ∀ tr, checkIsExpired m now (BId.tgt opts.target) st tr =
        (true, removeFirstId st (BId.tgt opts.target) ++ [expiredArchive ex now],
         tr ++ [StoreOp.doneExpired ex.uniqueId (expiredMsg (now - ex.lockUpdateTime))]) := by
      intro tr
      simp [checkIsExpired, hfind, hexp, hdone]
    have hrm : containsId (removeFirstId st (BId.tgt opts.target)) (BId.tgt opts.target) =
        false := count_removeFirst hcount
    have harch : containsId [expiredArchive ex now] (BId.tgt opts.target) = false := by
      simp [containsId, expiredArchive, eventID.key]
    have hc2 : containsId
        (removeFirstId st (BId.tgt opts.target) ++ [expiredArchive ex now])
        (BId.tgt opts.target) = false := by
      rw [contains_append, hrm, harch]
      rfl
    have hc3 : containsId
        (removeFirstId st (BId.tgt opts.target) ++ [expiredArchive ex now, comp])
        (BId.tgt opts.target) = true := by
      rw [contains_append, hrm]
      simp [containsId, hcompk]
    have hins3 : insertRow
        (removeFirstId st (BId.tgt opts.target) ++ [expiredArchive ex now, comp])
        (freshEvtData opts k (resolveOwner opts) emptyRaw now uniqID) =
        Except.error "duplicate key" := by
      simp [insertRow, hkey2, hc3]
    have harchk : ¬((expiredArchive ex now).id.key = BId.tgt opts.target) := by
      simp [expiredArchive, eventID.key]
    have hfind3 : findId
        (removeFirstId st (BId.tgt opts.target) ++ [expiredArchive ex now, comp])
        (BId.tgt opts.target) = some comp := by
      rw [findId_append_right _ hrm]
      simp only [findId]
      rw [if_neg harchk, if_pos hcompk]
    rw [hnew [none, some comp]]
    simp [insertLoop, applyInterf, hkey2, hdup, hchkB, hcompk, hc2, hins3, hfind3]

/-- Claim C1 witness: at now = 200 the holder (lockUpdateTime 100) is live
and creation fails with EventLocked carrying it; at now = 500 it is expired,
its Done archives it with the expired error and the single retry succeeds. -/
theorem c1_newEvt_duplicate_key_witness :
    newEvt mwTriv noBlock [] 200 77 [] (some optsC1) [exC1] =
      (Except.error (EvtErr.eventLocked exC1), [exC1],
       [StoreOp.insertAttempt (BId.tgt optsC1.target),
        StoreOp.insertAttempt (BId.tgt optsC1.target)]) ∧
    newEvt mwTriv noBlock [] 500 77 [] (some optsC1) [exC1] =
      (Except.ok ⟨freshEvtData optsC1 ⟨"permission", "app.deploy"⟩ (resolveOwner optsC1)
          emptyRaw 500 77, ""⟩,
       (removeFirstId [exC1] (BId.tgt optsC1.target) ++ [expiredArchive exC1 500]) ++
         [freshEvtData optsC1 ⟨"permission", "app.deploy"⟩ (resolveOwner optsC1)
           emptyRaw 500 77],
       [StoreOp.insertAttempt (BId.tgt optsC1.target),
        StoreOp.doneExpired 42 (expiredMsg (500 - 100)),
        StoreOp.insertAttempt (BId.tgt optsC1.target),
        StoreOp.heartbeatAdd optsC1.target]) := by
  constructor
  · exact (c1_newEvt_duplicate_key mwTriv noBlock [] 200 77 optsC1 [exC1] exC1
      ⟨"permission", "app.deploy"⟩ rfl (by decide) (by decide) rfl rfl rfl rfl
      (by decide)).1 (by decide)
  · exact (c1_newEvt_duplicate_key mwTriv noBlock [] 500 77 optsC1 [exC1] exC1
      ⟨"permission", "app.deploy"⟩ rfl (by decide) (by decide) rfl rfl rfl rfl
      (by decide)).2.1 (by decide) (by decide) (by decide) rfl

end TsuruEvent
